import Mathlib

/-!
Verification of the Odin-DNS wire codec, cache layer, metrics pipeline and
UDP server loop.  The Go sources are shallowly embedded: Go byte slices and
strings become `List Nat` (each element a byte value), machine integers
become `Nat` with explicit `% 2^w` where the code truncates, fallible
functions return `Except`.  The unbounded recursion of the Go domain-name
parser is modelled with an explicit `fuel` argument that is consumed only
when a compression pointer is followed, so exhausting every fuel bound
witnesses divergence of the original recursion.
-/

/-- Go `string` / `[]byte`: a sequence of byte values. -/
abbrev GoString := List Nat

/-- Go `odintypes.DNSHeaderFlags` (pkg/odintypes/types.go). -/
structure DNSHeaderFlags where
  QR : Bool
  Opcode : Nat
  AA : Bool
  TC : Bool
  RD : Bool
  RA : Bool
  Z : Nat
  AD : Bool
  CD : Bool
  RCode : Nat
  deriving Repr, DecidableEq

/-- Go `util.ParseFlags` (internal/util): field extraction from the 16-bit
flags word.  Bits 6..4 are folded into the 3-bit `Z`; `AD` and `CD` are
left at their zero value. -/
def ParseFlags (flags : Nat) : DNSHeaderFlags :=
  { QR := (flags &&& 0x8000) != 0
    Opcode := (flags &&& 0x7800) >>> 11
    AA := (flags &&& 0x0400) != 0
    TC := (flags &&& 0x0200) != 0
    RD := (flags &&& 0x0100) != 0
    RA := (flags &&& 0x0080) != 0
    Z := (flags &&& 0x0070) >>> 4
    AD := false
    CD := false
    RCode := flags &&& 0x000F }

/-- Go `DNSHeaderFlags.ToUint16` (pkg/odintypes/types.go): rebuilds the flags
word; note that the `AD` bit (1 <<< 5) and `CD` bit (1 <<< 4) overlap the
3-bit `Z` field written at shift 4. -/
def DNSHeaderFlags.ToUint16 (f : DNSHeaderFlags) : Nat :=
  let flags : Nat := 0
  let flags := if f.QR then flags ||| (1 <<< 15) else flags
  let flags := flags ||| ((f.Opcode &&& 0xF) <<< 11)
  let flags := if f.AA then flags ||| (1 <<< 10) else flags
  let flags := if f.TC then flags ||| (1 <<< 9) else flags
  let flags := if f.RD then flags ||| (1 <<< 8) else flags
  let flags := if f.RA then flags ||| (1 <<< 7) else flags
  let flags := flags ||| ((f.Z &&& 0x7) <<< 4)
  let flags := if f.AD then flags ||| (1 <<< 5) else flags
  let flags := if f.CD then flags ||| (1 <<< 4) else flags
  let flags := flags ||| (f.RCode &&& 0xF)
  flags

/-! ## Wire-format data model (pkg/odintypes/types.go) -/

/-- Go `odintypes.DNSHeader`: all counters are Go `uint16`. -/
structure DNSHeader where
  ID : Nat
  Flags : DNSHeaderFlags
  QDCount : Nat
  ANCount : Nat
  NSCount : Nat
  ARCount : Nat
  deriving Repr, DecidableEq

/-- Go `odintypes.DNSQuestion`. -/
structure DNSQuestion where
  Name : GoString
  Type_ : Nat
  Class : Nat
  deriving Repr, DecidableEq

/-- Go `odintypes.DNSRecord`. -/
structure DNSRecord where
  Name : GoString
  Type_ : Nat
  Class : Nat
  TTL : Nat
  RData : GoString
  deriving Repr, DecidableEq

/-- Go `odintypes.DNSRequest`. -/
structure DNSRequest where
  Header : DNSHeader
  Questions : List DNSQuestion
  Answers : List DNSRecord
  Authority : List DNSRecord
  Additional : List DNSRecord
  deriving Repr, DecidableEq

def TYPE_A : Nat := 1
def TYPE_NS : Nat := 2
def TYPE_CNAME : Nat := 5
def TYPE_SOA : Nat := 6
def TYPE_MX : Nat := 15
def TYPE_TXT : Nat := 16
def TYPE_AAAA : Nat := 28
def TYPE_SRV : Nat := 33
def TYPE_PTR : Nat := 12
def TYPE_ANY : Nat := 255

/-! ## Parser (internal/util ParseDomainName, internal/parser Parse*) -/

/-- Error values of the parse path; each constructor corresponds to one
`fmt.Errorf` site.  `outOfFuel` has no Go counterpart: it marks that the
unbounded pointer recursion of `ParseDomainName` exceeded the given call
depth, so holding at every fuel witnesses divergence of the Go code. -/
inductive ParseErr where
  | shortHeader
  | shortName
  | shortPointer
  | pointerOutOfBounds
  | shortLabel
  | questionPastEnd
  | shortQuestion
  | shortTypeClass
  | outOfFuel
  deriving Repr, DecidableEq

/-- The trailing-dot strip performed at the returns of `ParseDomainName`:
the final octet is removed when it is a dot. -/
def stripTrailingDot (name : GoString) : GoString :=
  if name ≠ [] ∧ name.getLast? = some 46 then name.dropLast else name

/-- The loop body of `util.ParseDomainName`: `name` is the accumulator
string, `offset` the cursor.  `fuel` bounds the number of loop iterations
and compression-pointer jumps taken; the Go code has no such bound (and no
visited set), so an `outOfFuel` result at every fuel witnesses divergence
of the Go recursion, while every terminating Go execution is reproduced by
all sufficiently large fuels. -/
def parseNameLoop (buffer : GoString) (fuel : Nat) (name : GoString) (offset : Nat) :
    Except ParseErr (GoString × Nat) :=
  match fuel with
  | 0 => .error .outOfFuel
  | fuel + 1 =>
    if offset ≥ buffer.length then .error .shortName
    else
      let length := buffer.getD offset 0
      let offset1 := offset + 1
      if length = 0 then .ok (stripTrailingDot name, offset1)
      else if length &&& 0xC0 = 0xC0 then
        if offset1 ≥ buffer.length then .error .shortPointer
        else
          let pointerOffset := ((length &&& 0x3F) <<< 8) ||| buffer.getD offset1 0
          let offset2 := offset1 + 1
          if pointerOffset ≥ buffer.length then .error .pointerOutOfBounds
          else
            match parseNameLoop buffer fuel [] pointerOffset with
            | .error e => .error e
            | .ok (pointedToName, _) =>
              .ok (stripTrailingDot (name ++ pointedToName), offset2)
      else if offset1 + length > buffer.length then .error .shortLabel
      else
        parseNameLoop buffer fuel (name ++ (buffer.drop offset1).take length ++ [46])
          (offset1 + length)

/-- Go `util.ParseDomainName buffer offset`, at pointer-recursion depth `fuel`. -/
def ParseDomainName (buffer : GoString) (offset : Nat) (fuel : Nat) :
    Except ParseErr (GoString × Nat) :=
  parseNameLoop buffer fuel [] offset

/-- Big-endian 16-bit read `uint16(b[i])<<8 | uint16(b[i+1])`. -/
def u16At (b : GoString) (i : Nat) : Nat :=
  (b.getD i 0) <<< 8 ||| b.getD (i + 1) 0

/-- Go `parser.ParseHeaderSection` (the Go function can never return an
error, so it is modelled as a total function of the 12 header octets). -/
def ParseHeaderSection (h : GoString) : DNSHeader :=
  { ID := u16At h 0
    Flags := ParseFlags (u16At h 2)
    QDCount := u16At h 4
    ANCount := u16At h 6
    NSCount := u16At h 8
    ARCount := u16At h 10 }

/-- Go `parser.ParseQuestionSection`. -/
def ParseQuestionSection (buffer : GoString) (offset : Nat) (fuel : Nat) :
    Except ParseErr (DNSQuestion × Nat) :=
  if offset + 4 > buffer.length then .error .shortQuestion
  else
    match ParseDomainName buffer offset fuel with
    | .error e => .error e
    | .ok (name, newOffset) =>
      if newOffset + 4 > buffer.length then .error .shortTypeClass
      else
        .ok ({ Name := name, Type_ := u16At buffer newOffset,
               Class := u16At buffer (newOffset + 2) }, newOffset + 4)

/-- The question loop of `parser.ParseRequest` (`for i := range QDCount`). -/
def parseQuestions (buffer : GoString) (fuel : Nat) :
    Nat → Nat → Except ParseErr (List DNSQuestion)
  | 0, _ => .ok []
  | n + 1, offset =>
    if offset ≥ buffer.length then .error .questionPastEnd
    else
      match ParseQuestionSection buffer offset fuel with
      | .error e => .error e
      | .ok (q, newOffset) =>
        match parseQuestions buffer fuel n newOffset with
        | .error e => .error e
        | .ok qs => .ok (q :: qs)

/-- Go `parser.ParseRequest`. -/
def ParseRequest (buffer : GoString) (fuel : Nat) : Except ParseErr DNSRequest :=
  if buffer.length < 12 then .error .shortHeader
  else
    let header := ParseHeaderSection (buffer.take 12)
    match parseQuestions buffer fuel header.QDCount 12 with
    | .error e => .error e
    | .ok qs =>
      .ok { Header := header, Questions := qs, Answers := [], Authority := [],
            Additional := [] }

/-! ## Packer (internal/parser PackResponse, packDomainName, packRData) -/

/-- Error values of the pack path, one per `fmt.Errorf` site reachable in
`packDomainName` / `packRData`. -/
inductive PackErr where
  | labelTooLong (label : GoString)
  | aRDataLen (n : Nat)
  | aaaaRDataLen (n : Nat)
  | mxTooShort (n : Nat)
  | mxNoDomain
  | txtTooLong (n : Nat)
  deriving Repr, DecidableEq

/-- Big-endian serialization of a Go `uint16` value (`binary.Write` with
`binary.BigEndian`); the `% 65536` models the `uint16` conversion. -/
def u16be (x : Nat) : GoString :=
  [(x % 65536) >>> 8, (x % 65536) &&& 0xFF]

/-- Big-endian serialization of a Go `uint32` value. -/
def u32be (x : Nat) : GoString :=
  [(x % 4294967296) >>> 24, (x % 4294967296) >>> 16 &&& 0xFF,
   (x % 4294967296) >>> 8 &&& 0xFF, (x % 4294967296) &&& 0xFF]

/-- Go `strings.Split(domain, ".")`. -/
def splitOnDot (s : GoString) : List GoString := s.splitOn 46

/-- Lookup in the `nameOffsets` map (Go `map[string]uint16`; keys are
inserted at most once along the pack path, so an association list is an
exact model). -/
def findOffset (m : List (GoString × Nat)) (d : GoString) : Option Nat :=
  match m with
  | [] => none
  | (k, v) :: rest => if k = d then some v else findOffset rest d

/-- The label loop of `parser.packDomainName`.  `origLen` is the length of
the full `parts` slice and `domain` the whole name: the Go loop has a
break-branch testing `len(parts) == 1` and a whole-name comparison with
the bare dot (it is unreachable, since splitting a bare dot on the dot
yields two elements).  The Go loop body also joins the remaining parts
into a `suffix` feeding an empty `if` statement, which has no effect and
is not modelled. -/
def packLabels (parts : List GoString) (origLen : Nat) (domain : GoString) :
    Except PackErr GoString :=
  match parts with
  | [] => .ok []
  | part :: rest =>
    if part = [] then
      if origLen = 1 ∧ domain = [46] then .ok [0]
      else packLabels rest origLen domain
    else if part.length > 63 then .error (.labelTooLong part)
    else
      match packLabels rest origLen domain with
      | .error e => .error e
      | .ok r => .ok ((part.length :: part) ++ r)

/-- Go `parser.packDomainName`: emits a compression pointer when the whole
`domain` was already written, otherwise writes the labels followed by a
terminating 0 octet and records `domain` at `uint16(currentBufferLen)`. -/
def packDomainName (domain : GoString) (nameOffsets : List (GoString × Nat))
    (currentBufferLen : Nat) : Except PackErr (GoString × List (GoString × Nat)) :=
  match findOffset nameOffsets domain with
  | some offset => .ok (u16be (0xC000 ||| offset), nameOffsets)
  | none =>
    let parts := splitOnDot domain
    let nameOffsets1 :=
      if domain ≠ [] ∧ domain ≠ [46] then (domain, currentBufferLen % 65536) :: nameOffsets
      else nameOffsets
    match packLabels parts parts.length domain with
    | .error e => .error e
    | .ok packed => .ok (packed ++ [0], nameOffsets1)

/-- Go `parser.packRData`: returns the octets appended to the buffer.
`bufLen` is `buf.Len()` at entry (used as the compression offset for
domain-name RData). -/
def packRData (recordType : Nat) (rData : GoString) (bufLen : Nat)
    (nameOffsets : List (GoString × Nat)) :
    Except PackErr (GoString × List (GoString × Nat)) :=
  if recordType = TYPE_A then
    if rData.length ≠ 4 then .error (.aRDataLen rData.length)
    else .ok (rData, nameOffsets)
  else if recordType = TYPE_AAAA then
    if rData.length ≠ 16 then .error (.aaaaRDataLen rData.length)
    else .ok (rData, nameOffsets)
  else if recordType = TYPE_CNAME ∨ recordType = TYPE_NS ∨ recordType = TYPE_PTR then
    packDomainName rData nameOffsets bufLen
  else if recordType = TYPE_MX then
    if rData.length < 2 then .error (.mxTooShort rData.length)
    else
      let preference := (rData.getD 0 0) <<< 8 ||| rData.getD 1 0
      let domainName := rData.drop 2
      if domainName = [] then .error .mxNoDomain
      else
        match packDomainName domainName nameOffsets (bufLen + 2) with
        | .error e => .error e
        | .ok (packed, offsets1) => .ok (u16be preference ++ packed, offsets1)
  else if recordType = TYPE_TXT then
    if rData.length > 255 then .error (.txtTooLong rData.length)
    else .ok ((rData.length % 256) :: rData, nameOffsets)
  else .ok (rData, nameOffsets)

/-- Go `binary.BigEndian.PutUint16(buf.Bytes()[pos:], v)`: overwrite two
octets in place. -/
def overwrite2 (buf : GoString) (pos : Nat) (b2 : GoString) : GoString :=
  buf.take pos ++ b2 ++ buf.drop (pos + 2)

/-- The question loop of `parser.PackResponse`.  (The Go loop also
maintains a `currentOffset` variable that is never read; it is not
modelled.) -/
def packQuestions (qs : List DNSQuestion) (buf : GoString)
    (nameOffsets : List (GoString × Nat)) :
    Except PackErr (GoString × List (GoString × Nat)) :=
  match qs with
  | [] => .ok (buf, nameOffsets)
  | q :: rest =>
    match packDomainName q.Name nameOffsets buf.length with
    | .error e => .error e
    | .ok (packedName, offsets1) =>
      packQuestions rest (buf ++ packedName ++ u16be q.Type_ ++ u16be q.Class) offsets1

/-- The answer loop of `parser.PackResponse`: name, Type, Class, TTL, a
2-octet RDLENGTH placeholder, the RData octets, then the placeholder is
overwritten with `uint16(buf.Len() - rdataStartPos)`. -/
def packAnswers (answers : List DNSRecord) (buf : GoString)
    (nameOffsets : List (GoString × Nat)) :
    Except PackErr (GoString × List (GoString × Nat)) :=
  match answers with
  | [] => .ok (buf, nameOffsets)
  | a :: rest =>
    match packDomainName a.Name nameOffsets buf.length with
    | .error e => .error e
    | .ok (packedName, offsets1) =>
      let buf1 := buf ++ packedName ++ u16be a.Type_ ++ u16be a.Class ++ u32be a.TTL
      let rdLengthPos := buf1.length
      let buf2 := buf1 ++ u16be 0
      let rdataStartPos := buf2.length
      match packRData a.Type_ a.RData buf2.length offsets1 with
      | .error e => .error e
      | .ok (rdata, offsets2) =>
        let buf3 := buf2 ++ rdata
        let rdataLen := (buf3.length - rdataStartPos) % 65536
        packAnswers rest (overwrite2 buf3 rdLengthPos (u16be rdataLen)) offsets2

/-- Go `parser.PackResponse`: header octets, then questions, then answers.
The `Authority` and `Additional` sections are never written (their counts
are still packed into the header). -/
def PackResponse (response : DNSRequest) : Except PackErr GoString :=
  let buf := u16be response.Header.ID ++ u16be response.Header.Flags.ToUint16 ++
    u16be response.Header.QDCount ++ u16be response.Header.ANCount ++
    u16be response.Header.NSCount ++ u16be response.Header.ARCount
  match packQuestions response.Questions buf [] with
  | .error e => .error e
  | .ok (buf1, nameOffsets) =>
    match packAnswers response.Answers buf1 nameOffsets with
    | .error e => .error e
    | .ok (buf2, _) => .ok buf2

/-! ## Uncompressed name encoding (internal/util FormatDomainName) -/

/-- Go `util.splitDomainName`: the index loop collects exactly the
nonempty dot-separated segments of the name. -/
def splitDomainName (name : GoString) : List GoString :=
  (splitOnDot name).filter (fun l => l ≠ [])

/-- The label loop of `util.FormatDomainName` (labels longer than 63 are
skipped by `continue`). -/
def formatLabels (labels : List GoString) : GoString :=
  match labels with
  | [] => []
  | l :: rest =>
    if l.length > 63 then formatLabels rest
    else (l.length :: l) ++ formatLabels rest

/-- Go `util.FormatDomainName`: the naive, uncompressed wire encoding of a
domain name. -/
def FormatDomainName (name : GoString) : GoString :=
  if name = [] then [0]
  else formatLabels (splitDomainName name) ++ [0]

/-! ## Metrics ingestion (internal/metrics) -/

/-- Encode a Lean string literal as Go bytes (for concrete test data). -/
def goStr (s : String) : GoString := s.data.map Char.toNat

/-- Decimal rendering of a number, for the `%d` of `fmt.Sprintf`. -/
def natDigits (n : Nat) : GoString := (Nat.toDigits 10 n).map Char.toNat

/-- The error-message values a `DNSMetric` can carry; the Go code formats
these with `fmt.Sprintf`, which is modelled symbolically. -/
inductive ErrMsg where
  | empty
  | formerrParse (e : ParseErr)
  | formerrNoQuestions
  | servfail
  | nxdomain
  | sendFailed
  deriving Repr, DecidableEq

/-- Go `metrics.DNSMetric` (internal/metrics/driver.go).  `Timestamp` is an
abstract clock reading and `ResponseTimeMs` the measured elapsed
milliseconds (Go `float64`, always an integral millisecond count here). -/
structure DNSMetric where
  Timestamp : Nat
  IP : GoString
  Domain : GoString
  QueryType : GoString
  Success : Nat
  ErrorMessage : ErrMsg
  ResponseTimeMs : Nat
  CacheHit : Nat
  Rcode : Nat
  deriving Repr, DecidableEq

/-- The data state of `metrics.ClickHouseIngestionDriver`: the bounded
channel contents plus the two batching parameters.  (The ClickHouse
connection and the logger are I/O handles carrying no data state.) -/
structure ClickHouseIngestionDriver where
  metricBuffer : List DNSMetric
  batchSize : Nat
  batchInterval : Nat
  deriving Repr, DecidableEq

/-- The channel capacity fixed by `NewClickHouseIngestionDriver`:
`make(chan DNSMetric, config.CLICKHOUSE_MAX_BATCH_SIZE*2)`. -/
def chanCapacity (d : ClickHouseIngestionDriver) : Nat := d.batchSize * 2

/-- Go `ClickHouseIngestionDriver.Collect`: a `select` with a `default`
branch — enqueue if the channel has room, otherwise log a warning and do
nothing.  Modelled as a total function: it never blocks. -/
def Collect (d : ClickHouseIngestionDriver) (metric : DNSMetric) :
    ClickHouseIngestionDriver :=
  if d.metricBuffer.length < chanCapacity d then
    { d with metricBuffer := d.metricBuffer ++ [metric] }
  else d

/-! ## Cache layer (internal/datastore/Redis/redisCache.go) -/

/-- Go `types.CacheRecord` (internal/types). -/
structure CacheRecord where
  Name : GoString
  Type_ : GoString
  Class : GoString
  TTL : Nat
  RData : GoString
  deriving Repr, DecidableEq

/-- Go `odintypes.TypeToString`. -/
def TypeToString (t : Nat) : GoString :=
  if t = TYPE_A then goStr "A"
  else if t = TYPE_NS then goStr "NS"
  else if t = TYPE_CNAME then goStr "CNAME"
  else if t = TYPE_SOA then goStr "SOA"
  else if t = TYPE_MX then goStr "MX"
  else if t = TYPE_TXT then goStr "TXT"
  else if t = TYPE_AAAA then goStr "AAAA"
  else if t = TYPE_SRV then goStr "SRV"
  else if t = TYPE_PTR then goStr "PTR"
  else if t = TYPE_ANY then goStr "ANY"
  else goStr "TYPE" ++ natDigits t

/-- Go `odintypes.ClassToString`. -/
def ClassToString (c : Nat) : GoString :=
  if c = 1 then goStr "IN" else goStr "CLASS" ++ natDigits c

/-- Go `redis.combineSearchPartsToKey`: the name and the decimal type and
class joined with pipe characters by `fmt.Sprintf`. -/
def combineSearchPartsToKey (rname : GoString) (rtype rclass : Nat) : GoString :=
  rname ++ [124] ++ natDigits rtype ++ [124] ++ natDigits rclass

/-- Result of the `Result()` of a Redis `Get`: a payload, the `redis.Nil`
key-absent error, or any other error. -/
inductive RedisGetResult where
  | ok (entry : GoString)
  | errNil
  | errOther
  deriving Repr, DecidableEq

/-- Side effects issued against the cache during one lookup. -/
inductive CacheOp where
  | set (key : GoString) (value : GoString) (ttlNanos : Nat)
  | del (key : GoString)
  deriving Repr, DecidableEq

/-- The environment one `LookupRecordForDNSQuery` call runs in: the Redis
read outcome, the persistent store answer, and the abstract behaviour of
the JSON / RData codecs (which live outside the cache layer). -/
structure CacheEnv where
  get : RedisGetResult
  store : Except Unit (Option DNSRecord)
  unmarshal : GoString → Option CacheRecord
  convert : Nat → GoString → Option GoString
  convertToString : Nat → GoString → GoString
  marshal : CacheRecord → Option GoString

/-- The cache expiry computed before the Redis `Set`, in nanoseconds:
the record TTL in seconds, replaced by 5 minutes when not positive. -/
def cacheTTLNanos (ttl : Nat) : Nat :=
  let cacheTTL := ttl * 1000000000
  if cacheTTL ≤ 0 then 300 * 1000000000 else cacheTTL

/-- Go `RedisCacheDriver.LookupRecordForDNSQuery`: returns the Go result
(record or error) together with the cache operations performed.  A `Set`
failure and a `Marshal` failure only log; a `Get` failure other than
`redis.Nil` is returned as an error; an unparseable entry is deleted and
the persistent store consulted. -/
def LookupRecordForDNSQuery (env : CacheEnv) (rname : GoString)
    (rtype rclass : Nat) : Except Unit (Option DNSRecord) × List CacheOp :=
  let cacheKey := combineSearchPartsToKey rname rtype rclass
  match env.get with
  | .errNil =>
    match env.store with
    | .error e => (.error e, [])
    | .ok none => (.ok none, [])
    | .ok (some dbRecordFromPersistent) =>
      let rDataStringForCache :=
        env.convertToString dbRecordFromPersistent.Type_ dbRecordFromPersistent.RData
      let cacheableRecord : CacheRecord :=
        { Name := dbRecordFromPersistent.Name
          Type_ := TypeToString dbRecordFromPersistent.Type_
          Class := ClassToString dbRecordFromPersistent.Class
          TTL := dbRecordFromPersistent.TTL
          RData := rDataStringForCache }
      match env.marshal cacheableRecord with
      | none => (.ok (some dbRecordFromPersistent), [])
      | some recordJSONBytes =>
        (.ok (some dbRecordFromPersistent),
         [.set cacheKey recordJSONBytes (cacheTTLNanos dbRecordFromPersistent.TTL)])
  | .errOther => (.error (), [])
  | .ok cacheEntry =>
    match env.unmarshal cacheEntry with
    | none => (env.store, [.del cacheKey])
    | some cachedDBRecord =>
      match env.convert rtype cachedDBRecord.RData with
      | none => (env.store, [.del cacheKey])
      | some packedRData =>
        (.ok (some { Name := cachedDBRecord.Name, Type_ := rtype, Class := rclass,
                     TTL := cachedDBRecord.TTL, RData := packedRData }), [])

/-! ## Query server (internal/server/server.go, metrics-instrumented loop) -/

/-- Go `util.ParseType`. -/
def ParseType (typeCode : Nat) : Except Unit GoString :=
  if typeCode = 1 then .ok (goStr "A")
  else if typeCode = 2 then .ok (goStr "NS")
  else if typeCode = 5 then .ok (goStr "CNAME")
  else if typeCode = 6 then .ok (goStr "SOA")
  else if typeCode = 12 then .ok (goStr "PTR")
  else if typeCode = 15 then .ok (goStr "MX")
  else if typeCode = 16 then .ok (goStr "TXT")
  else if typeCode = 28 then .ok (goStr "AAAA")
  else .error ()

/-- Go `util.ParseTypeOrNA`. -/
def ParseTypeOrNA (typeCode : Nat) : GoString :=
  match ParseType typeCode with
  | .error _ => goStr "N/A"
  | .ok pt => pt

/-- Environment of one loop iteration of `StartServer`: the cache-driver
lookup (record, cacheHit, err) and whether the UDP write succeeds. -/
structure ServerEnv where
  lookup : GoString → Nat → Nat → Except Unit (Option DNSRecord) × Nat
  udpWriteOk : Bool

/-- Go `server.SendResponse`: pack, then write; either failure is an error. -/
def SendResponseModel (env : ServerEnv) (response : DNSRequest) :
    Except Unit GoString :=
  match PackResponse response with
  | .error _ => .error ()
  | .ok bytes => if env.udpWriteOk then .ok bytes else .error ()

/-- What one loop iteration produced: the response handed to
`SendResponse` (if any), the octets actually written to the socket (if the
pack and write succeeded), and the sample handed to `Collect` (if any). -/
structure HandleOutcome where
  response : Option DNSRequest
  sent : Option GoString
  metric : Option DNSMetric
  deriving Repr, DecidableEq

/-- Go `conn.ReadFromUDP(buffer)` writes the datagram over the first octets
of the reusable receive buffer and leaves the remainder untouched; the
server then passes the whole buffer to `ParseRequest` (the returned length
is discarded). -/
def bufferAfterRead (prev datagram : GoString) : GoString :=
  datagram ++ prev.drop datagram.length

/-- Go `make([]byte, config.BUFFER_SIZE)` with the default 512. -/
def freshBuffer : GoString := List.replicate 512 0

/-- The response skeleton built at the top of the loop body. -/
def initialResponse : DNSRequest :=
  { Header :=
      { ID := 0
        Flags :=
          { QR := true, Opcode := 0, AA := false, TC := false, RD := false,
            RA := false, Z := 0, AD := false, CD := false, RCode := 0 }
        QDCount := 0, ANCount := 0, NSCount := 0, ARCount := 0 }
    Questions := [], Answers := [], Authority := [], Additional := [] }

/-- The metric skeleton built at the top of the loop body. -/
def initialMetric (now : Nat) (clientIP : GoString) : DNSMetric :=
  { Timestamp := now, IP := clientIP, Domain := goStr "N/A",
    QueryType := goStr "N/A", Success := 1, ErrorMessage := .empty,
    ResponseTimeMs := 0, CacheHit := 0, Rcode := 0 }

/-- One iteration of the per-datagram state machine of `StartServer`
(the metrics-instrumented variant), from `ParseRequest` to `Collect`.
`buffer` is the whole receive buffer as passed to `ParseRequest`. -/
def handleDatagram (env : ServerEnv) (fuel : Nat) (buffer : GoString)
    (now : Nat) (clientIP : GoString) (elapsedMs : Nat) : HandleOutcome :=
  let response0 := initialResponse
  let metric0 := initialMetric now clientIP
  match ParseRequest buffer fuel with
  | .error parseErr =>
    let response := { response0 with
      Header := { response0.Header with
        Flags := { response0.Header.Flags with RCode := 1 } } }
    let metric := { metric0 with
      Success := 0
      ErrorMessage := ErrMsg.formerrParse parseErr
      Rcode := 1
      ResponseTimeMs := elapsedMs }
    { response := some response
      sent := (SendResponseModel env response).toOption
      metric := some metric }
  | .ok req =>
    let response1 := { response0 with
      Header := { response0.Header with
        ID := req.Header.ID
        QDCount := req.Header.QDCount }
      Questions := req.Questions }
    if req.Header.Flags.QR then
      { response := none, sent := none, metric := none }
    else
      match req.Questions with
      | [] =>
        let response := { response1 with
          Header := { response1.Header with
            Flags := { response1.Header.Flags with RCode := 1, QR := true } } }
        let metric := { metric0 with
          Success := 0
          ErrorMessage := .formerrNoQuestions
          Rcode := 1
          ResponseTimeMs := elapsedMs }
        { response := some response
          sent := (SendResponseModel env response).toOption
          metric := some metric }
      | question :: _ =>
        let metric1 := { metric0 with
          Domain := question.Name
          QueryType := ParseTypeOrNA question.Type_ }
        match env.lookup question.Name question.Type_ question.Class with
        | (.error _, cacheHit) =>
          let response := { response1 with
            Header := { response1.Header with
              Flags := { response1.Header.Flags with RCode := 2 }
              ANCount := 0
              NSCount := 0
              ARCount := 0 }
            Answers := []
            Authority := []
            Additional := [] }
          let metric := { metric1 with
            CacheHit := cacheHit
            Success := 0
            ErrorMessage := .servfail
            Rcode := 2
            ResponseTimeMs := elapsedMs }
          { response := some response
            sent := (SendResponseModel env response).toOption
            metric := some metric }
        | (.ok none, cacheHit) =>
          let response := { response1 with
            Header := { response1.Header with
              Flags := { response1.Header.Flags with RCode := 3 }
              ANCount := 0
              NSCount := 0
              ARCount := 0 }
            Answers := []
            Authority := []
            Additional := [] }
          let metric := { metric1 with
            CacheHit := cacheHit
            Success := 0
            ErrorMessage := .nxdomain
            Rcode := 3
            ResponseTimeMs := elapsedMs }
          { response := some response
            sent := (SendResponseModel env response).toOption
            metric := some metric }
        | (.ok (some dnsRecord), cacheHit) =>
          let response := { response1 with
            Header := { response1.Header with
              Flags := { response1.Header.Flags with AA := true }
              ANCount := (response1.Header.ANCount + 1) % 65536 }
            Answers := response1.Answers ++ [dnsRecord] }
          let metric2 := { metric1 with
            CacheHit := cacheHit
            Success := 1
            ErrorMessage := .empty
            Rcode := response.Header.Flags.RCode }
          match SendResponseModel env response with
          | .error _ =>
            let metric := { metric2 with
              Success := 0
              ErrorMessage := .sendFailed
              Rcode := 2
              ResponseTimeMs := elapsedMs }
            { response := some response
              sent := none
              metric := some metric }
          | .ok bytes =>
            let metric := { metric2 with ResponseTimeMs := elapsedMs }
            { response := some response
              sent := some bytes
              metric := some metric }

/-! ## Valid wire-name constructions used in the statements -/

/-- Length-prefixed label sequence: the wire form of a name as labels. -/
def encodeLabels (parts : List GoString) : GoString :=
  match parts with
  | [] => []
  | p :: rest => (p.length :: p) ++ encodeLabels rest

/-- The label-dot accumulation performed by the `ParseDomainName` loop:
each label is appended followed by a dot. -/
def joinDots (parts : List GoString) : GoString :=
  match parts with
  | [] => []
  | p :: rest => p ++ [46] ++ joinDots rest

/-- Wire encoding of one question as emitted on the no-compression path. -/
def encQ (q : DNSQuestion) : GoString :=
  encodeLabels (splitOnDot q.Name) ++ [0] ++ u16be q.Type_ ++ u16be q.Class

/-- Wire encoding of a question list, no compression. -/
def encQuestions (qs : List DNSQuestion) : GoString :=
  match qs with
  | [] => []
  | q :: rest => encQ q ++ encQuestions rest

/-- Modelled from the spec: the size of the "naive uncompressed encoding"
of a questions-only response — header plus, per question, the full
`FormatDomainName` encoding of its name and 4 octets of type/class, with
no compression pointers. -/
def naiveQuestionsSize (m : DNSRequest) : Nat :=
  12 + (m.Questions.map (fun q => (FormatDomainName q.Name).length + 4)).sum

/-- The 12 header octets as written by `PackResponse`. -/
def hdrBytes (h : DNSHeader) : GoString :=
  u16be h.ID ++ u16be h.Flags.ToUint16 ++ u16be h.QDCount ++ u16be h.ANCount ++
    u16be h.NSCount ++ u16be h.ARCount

/-! ## Bit-level helper lemmas -/

/-- A bitwise-or of values occupying disjoint bit ranges is an addition. -/
theorem lor_eq_add_of_dvd {a b : Nat} (i : Nat) (ha : 2 ^ i ∣ a) (hb : b < 2 ^ i) :
    a ||| b = a + b := by
  obtain ⟨k, rfl⟩ := ha
  exact (Nat.mul_add_lt_is_or hb k).symm

/-- A conditional bit-set is an or with a 0/1 coefficient. -/
theorem if_or_toNat (b : Bool) (flags c : Nat) :
    (if b then flags ||| c else flags) = flags ||| b.toNat * c := by
  cases b <;> simp

/-- A conditional value against 0 is a 0/1 coefficient. -/
theorem if_toNat (b : Bool) (c : Nat) : (if b then c else 0) = b.toNat * c := by
  cases b <;> simp

/-- Testing a single bit by masking. -/
theorem and_two_pow_ne_zero (x i : Nat) : ((x &&& 2 ^ i) != 0) = x.testBit i := by
  rw [Nat.and_two_pow]
  cases h : x.testBit i <;> simp [(Nat.two_pow_pos i).ne']

/-- Reassociating the or-chain of the flag fields into a sum. -/
theorem flags_or_chain (q b a t r s g h : Nat) (_hq : q ≤ 1) (hb : b < 16)
    (ha : a ≤ 1) (ht : t ≤ 1) (hr : r ≤ 1) (hs : s ≤ 1) (hg : g < 8) (hh : h < 16) :
    q * 32768 ||| b * 2048 ||| a * 1024 ||| t * 512 ||| r * 256 ||| s * 128 |||
      g * 16 ||| h =
    q * 32768 + b * 2048 + a * 1024 + t * 512 + r * 256 + s * 128 + g * 16 + h := by
  rw [lor_eq_add_of_dvd 15 (show 2 ^ 15 ∣ q * 32768 from ⟨q, by ring⟩)
        (show b * 2048 < 2 ^ 15 by omega),
      lor_eq_add_of_dvd 11
        (show 2 ^ 11 ∣ q * 32768 + b * 2048 from ⟨16 * q + b, by ring⟩)
        (show a * 1024 < 2 ^ 11 by omega),
      lor_eq_add_of_dvd 10
        (show 2 ^ 10 ∣ q * 32768 + b * 2048 + a * 1024 from ⟨32 * q + 2 * b + a, by ring⟩)
        (show t * 512 < 2 ^ 10 by omega),
      lor_eq_add_of_dvd 9
        (show 2 ^ 9 ∣ q * 32768 + b * 2048 + a * 1024 + t * 512 from
          ⟨64 * q + 4 * b + 2 * a + t, by ring⟩)
        (show r * 256 < 2 ^ 9 by omega),
      lor_eq_add_of_dvd 8
        (show 2 ^ 8 ∣ q * 32768 + b * 2048 + a * 1024 + t * 512 + r * 256 from
          ⟨128 * q + 8 * b + 4 * a + 2 * t + r, by ring⟩)
        (show s * 128 < 2 ^ 8 by omega),
      lor_eq_add_of_dvd 7
        (show 2 ^ 7 ∣ q * 32768 + b * 2048 + a * 1024 + t * 512 + r * 256 + s * 128 from
          ⟨256 * q + 16 * b + 8 * a + 4 * t + 2 * r + s, by ring⟩)
        (show g * 16 < 2 ^ 7 by omega),
      lor_eq_add_of_dvd 4
        (show 2 ^ 4 ∣ q * 32768 + b * 2048 + a * 1024 + t * 512 + r * 256 + s * 128 + g * 16
          from ⟨2048 * q + 128 * b + 64 * a + 32 * t + 16 * r + 8 * s + g, by ring⟩)
        (show h < 2 ^ 4 by omega)]

/-- Masking with a shifted mask commutes with the matching right shift. -/
theorem and_mask_shift (x m k : Nat) : (x &&& (m <<< k)) >>> k = (x >>> k) &&& m := by
  apply Nat.eq_of_testBit_eq
  intro j
  simp [Nat.testBit_shiftLeft, Nat.add_comm k j]

/-- Re-packing parsed flags is the identity on every 16-bit word. -/
theorem toUint16_parseFlags (x : Nat) (hx : x < 65536) :
    (ParseFlags x).ToUint16 = x := by
  have hQR : ((x &&& 0x8000) != 0).toNat = x / 32768 % 2 := by
    rw [show (0x8000 : Nat) = 2 ^ 15 from rfl, and_two_pow_ne_zero, Nat.toNat_testBit]
  have hAA : ((x &&& 0x0400) != 0).toNat = x / 1024 % 2 := by
    rw [show (0x0400 : Nat) = 2 ^ 10 from rfl, and_two_pow_ne_zero, Nat.toNat_testBit]
  have hTC : ((x &&& 0x0200) != 0).toNat = x / 512 % 2 := by
    rw [show (0x0200 : Nat) = 2 ^ 9 from rfl, and_two_pow_ne_zero, Nat.toNat_testBit]
  have hRD : ((x &&& 0x0100) != 0).toNat = x / 256 % 2 := by
    rw [show (0x0100 : Nat) = 2 ^ 8 from rfl, and_two_pow_ne_zero, Nat.toNat_testBit]
  have hRA : ((x &&& 0x0080) != 0).toNat = x / 128 % 2 := by
    rw [show (0x0080 : Nat) = 2 ^ 7 from rfl, and_two_pow_ne_zero, Nat.toNat_testBit]
  have hOp : (x &&& 0x7800) >>> 11 = x / 2048 % 16 := by
    rw [show (0x7800 : Nat) = 15 <<< 11 from rfl, and_mask_shift,
      Nat.shiftRight_eq_div_pow, show (15 : Nat) = 2 ^ 4 - 1 from rfl,
      Nat.and_pow_two_sub_one_eq_mod]
  have hZ : (x &&& 0x0070) >>> 4 = x / 16 % 8 := by
    rw [show (0x0070 : Nat) = 7 <<< 4 from rfl, and_mask_shift,
      Nat.shiftRight_eq_div_pow, show (7 : Nat) = 2 ^ 3 - 1 from rfl,
      Nat.and_pow_two_sub_one_eq_mod]
  have hRC : x &&& 0x000F = x % 16 := by
    rw [show (0x000F : Nat) = 2 ^ 4 - 1 from rfl, Nat.and_pow_two_sub_one_eq_mod]
  have hOpm : (x / 2048 % 16) &&& 15 = x / 2048 % 16 := by
    rw [show (15 : Nat) = 2 ^ 4 - 1 from rfl]
    exact Nat.and_pow_two_sub_one_of_lt_two_pow (by omega)
  have hZm : (x / 16 % 8) &&& 7 = x / 16 % 8 := by
    rw [show (7 : Nat) = 2 ^ 3 - 1 from rfl]
    exact Nat.and_pow_two_sub_one_of_lt_two_pow (by omega)
  have hRCm : (x % 16) &&& 15 = x % 16 := by
    rw [show (15 : Nat) = 2 ^ 4 - 1 from rfl]
    exact Nat.and_pow_two_sub_one_of_lt_two_pow (by omega)
  simp only [ParseFlags, DNSHeaderFlags.ToUint16, if_or_toNat, if_toNat, Nat.zero_or]
  rw [hQR, hAA, hTC, hRD, hRA, hOp, hZ, hRC, hOpm, hZm, hRCm]
  simp only [Nat.shiftLeft_eq]
  norm_num
  rw [flags_or_chain (x / 32768 % 2) (x / 2048 % 16) (x / 1024 % 2) (x / 512 % 2)
        (x / 256 % 2) (x / 128 % 2) (x / 16 % 8) (x % 16)
        (by omega) (by omega) (by omega) (by omega) (by omega) (by omega) (by omega) (by omega)]
  omega

/-- C10: re-packing parsed flags is the identity on every 16-bit word,
and the parsed record always has `AD = false` and `CD = false`. -/
theorem parseFlags_toUint16_id (x : Nat) (hx : x < 65536) :
    (ParseFlags x).ToUint16 = x ∧
    (ParseFlags x).AD = false ∧ (ParseFlags x).CD = false :=
  ⟨toUint16_parseFlags x hx, rfl, rfl⟩

/-- Witness for `parseFlags_toUint16_id` at the concrete word 0x8180. -/
theorem parseFlags_toUint16_id_witness :
    (ParseFlags 0x8180).ToUint16 = 0x8180 ∧
    (ParseFlags 0x8180).AD = false ∧ (ParseFlags 0x8180).CD = false :=
  parseFlags_toUint16_id 0x8180 (by decide)

/-! ## Cache-layer theorems -/

/-- C9: every cache write performed by a miss-then-store-hit lookup uses
expiration `max(record.TTL, 300 s)` where the 300 s floor applies exactly
when the record TTL is 0; hence no stored entry has expiration greater
than `max(record.TTL, 300 s)`. -/
theorem cache_ttl_floor (env : CacheEnv) (rname : GoString) (rtype rclass : Nat)
    (r : DNSRecord) (hget : env.get = .errNil) (hstore : env.store = .ok (some r)) :
    (∀ op ∈ (LookupRecordForDNSQuery env rname rtype rclass).2,
       ∃ key payload, op = .set key payload (cacheTTLNanos r.TTL)) ∧
    cacheTTLNanos r.TTL = (if r.TTL = 0 then 300 else r.TTL) * 1000000000 ∧
    cacheTTLNanos r.TTL ≤ max r.TTL 300 * 1000000000 := by
  refine ⟨?_, ?_, ?_⟩
  · intro op hop
    simp only [LookupRecordForDNSQuery, hget, hstore] at hop
    split at hop
    · simp at hop
    · simp at hop
      exact ⟨_, _, hop⟩
  · unfold cacheTTLNanos
    by_cases h : r.TTL = 0 <;> simp [h]
  · unfold cacheTTLNanos
    by_cases h : r.TTL = 0 <;> simp [h]

/-- Witness for `cache_ttl_floor` with a concrete TTL-0 record. -/
theorem cache_ttl_floor_witness :
    cacheTTLNanos (DNSRecord.mk (goStr "x") 1 1 0 [1, 2, 3, 4]).TTL =
      (if (DNSRecord.mk (goStr "x") 1 1 0 [1, 2, 3, 4]).TTL = 0 then 300
       else (DNSRecord.mk (goStr "x") 1 1 0 [1, 2, 3, 4]).TTL) * 1000000000 :=
  (cache_ttl_floor
    ⟨.errNil, .ok (some ⟨goStr "x", 1, 1, 0, [1, 2, 3, 4]⟩), fun _ => none,
      fun _ _ => none, fun _ _ => [], fun _ => some []⟩
    (goStr "x") 1 1 ⟨goStr "x", 1, 1, 0, [1, 2, 3, 4]⟩ rfl rfl).2.1

/-- C4 counterexample: a cache read failure other than key-absence makes
the lookup return an error even though the persistent store holds the
record — it is not treated as a miss. -/
theorem cache_read_error_fails_lookup :
    (LookupRecordForDNSQuery
      ⟨.errOther, .ok (some ⟨goStr "x", 1, 1, 60, [1, 2, 3, 4]⟩), fun _ => none,
        fun _ _ => none, fun _ _ => [], fun _ => none⟩ (goStr "x") 1 1).1 =
      .error () ∧
    (CacheEnv.mk .errOther (.ok (some ⟨goStr "x", 1, 1, 60, [1, 2, 3, 4]⟩))
      (fun _ => none) (fun _ _ => none) (fun _ _ => []) (fun _ => none)).store =
      .ok (some ⟨goStr "x", 1, 1, 60, [1, 2, 3, 4]⟩) :=
  ⟨rfl, rfl⟩

/-- C4 amended: a key-absent miss falls through to the store and cache
write failures never fail the query; an unparseable cache entry is deleted
and treated as a miss; but a cache read error other than key-absence is
returned to the caller as an error. -/
theorem cache_errors_amended (env : CacheEnv) (rname : GoString) (rtype rclass : Nat) :
    (env.get = .errNil → ∀ r, env.store = .ok (some r) →
      (LookupRecordForDNSQuery env rname rtype rclass).1 = .ok (some r)) ∧
    (∀ entry, env.get = .ok entry → env.unmarshal entry = none →
      (LookupRecordForDNSQuery env rname rtype rclass).1 = env.store ∧
      (LookupRecordForDNSQuery env rname rtype rclass).2 =
        [.del (combineSearchPartsToKey rname rtype rclass)]) ∧
    (∀ entry rec_, env.get = .ok entry → env.unmarshal entry = some rec_ →
      env.convert rtype rec_.RData = none →
      (LookupRecordForDNSQuery env rname rtype rclass).1 = env.store ∧
      (LookupRecordForDNSQuery env rname rtype rclass).2 =
        [.del (combineSearchPartsToKey rname rtype rclass)]) ∧
    (env.get = .errOther →
      (LookupRecordForDNSQuery env rname rtype rclass).1 = .error ()) := by
  refine ⟨?_, ?_, ?_, ?_⟩
  · intro hget r hstore
    simp only [LookupRecordForDNSQuery, hget, hstore]
    split <;> rfl
  · intro entry hget hun
    simp only [LookupRecordForDNSQuery, hget, hun]
    exact ⟨trivial, trivial⟩
  · intro entry rec_ hget hun hconv
    simp only [LookupRecordForDNSQuery, hget, hun, hconv]
    exact ⟨trivial, trivial⟩
  · intro hget
    simp only [LookupRecordForDNSQuery, hget]

/-- Witness for `cache_errors_amended`: a concrete key-absent miss with a
failing cache write still returns the record of the store. -/
theorem cache_errors_amended_witness :
    (LookupRecordForDNSQuery
      ⟨.errNil, .ok (some ⟨goStr "y", 1, 1, 60, [9, 9, 9, 9]⟩), fun _ => none,
        fun _ _ => none, fun _ _ => [], fun _ => none⟩ (goStr "y") 1 1).1 =
      .ok (some ⟨goStr "y", 1, 1, 60, [9, 9, 9, 9]⟩) :=
  (cache_errors_amended _ (goStr "y") 1 1).1 rfl _ rfl

/-! ## Metrics-pipeline theorems -/

/-- C6 counterexample: submitting to a full channel leaves the entire
driver state unchanged — the `ClickHouseIngestionDriver` struct holds no
dropped-metric counter at all (the drop is only logged), so nothing is
incremented. -/
theorem collect_full_state_unchanged :
    Collect ⟨[⟨0, [], [], [], 1, .empty, 0, 0, 0⟩, ⟨1, [], [], [], 0, .servfail, 3, 0, 2⟩],
      1, 7⟩ ⟨2, [], [], [], 1, .empty, 0, 1, 0⟩ =
    ⟨[⟨0, [], [], [], 1, .empty, 0, 0, 0⟩, ⟨1, [], [], [], 0, .servfail, 3, 0, 2⟩],
      1, 7⟩ := by
  decide

/-- C6 amended: `Collect` never blocks (it is a total function of the
state): when the bounded channel is full the sample is dropped with the
whole driver state unchanged — no counter exists to increment — and
otherwise the sample is enqueued. -/
theorem collect_drop_amended (d : ClickHouseIngestionDriver) (m : DNSMetric) :
    (chanCapacity d ≤ d.metricBuffer.length → Collect d m = d) ∧
    (d.metricBuffer.length < chanCapacity d →
      Collect d m = { d with metricBuffer := d.metricBuffer ++ [m] }) := by
  constructor <;> intro h <;> unfold Collect
  · rw [if_neg (by omega)]
  · rw [if_pos h]

/-- Witness for `collect_drop_amended` at a concrete full channel. -/
theorem collect_drop_amended_witness :
    Collect ⟨[⟨5, [], [], [], 1, .empty, 0, 0, 0⟩, ⟨6, [], [], [], 1, .empty, 0, 0, 0⟩],
      1, 5⟩ ⟨7, [], [], [], 1, .empty, 0, 0, 0⟩ =
    ⟨[⟨5, [], [], [], 1, .empty, 0, 0, 0⟩, ⟨6, [], [], [], 1, .empty, 0, 0, 0⟩],
      1, 5⟩ :=
  (collect_drop_amended _ _).1 (by decide)

/-! ## Domain-name parser theorems -/

/-- C3: the self-referential compression pointer `C0 00` drives
`ParseDomainName` past every recursion bound: the Go code, which has no
visited-offset set and no depth bound, never returns on this input. -/
theorem parse_pointer_loop_diverges :
    ∀ fuel, ParseDomainName [0xC0, 0x00] 0 fuel = .error .outOfFuel := by
  intro fuel
  show parseNameLoop [0xC0, 0x00] fuel [] 0 = .error .outOfFuel
  induction fuel with
  | zero => rfl
  | succ f ih =>
    rw [parseNameLoop]
    norm_num [List.getD, show ((192 : Nat) &&& 63) <<< 8 = 0 from by decide]
    rw [ih]

/-- Read one octet just past a known prefix. -/
theorem getD_at_append (pre : GoString) (b : Nat) (rest : GoString) :
    (pre ++ b :: rest).getD pre.length 0 = b := by
  simp [List.getD_eq_getElem?_getD, List.getElem?_append_right (Nat.le_refl pre.length)]

/-- Read an octet at an offset past a known prefix. -/
theorem getD_at_append_add (pre : GoString) (l2 : GoString) (i : Nat) :
    (pre ++ l2).getD (pre.length + i) 0 = l2.getD i 0 := by
  simp [List.getD_eq_getElem?_getD,
    List.getElem?_append_right (Nat.le_add_right pre.length i)]

/-- Slice a known sublist out of an append. -/
theorem drop_take_mid (pre mid post : GoString) :
    (((pre ++ mid ++ post).drop pre.length).take mid.length) = mid := by
  rw [List.append_assoc, List.drop_left, List.take_left]

/-- Length of one label in the wire form. -/
theorem length_encodeLabels_cons (p : GoString) (rest : List GoString) :
    (encodeLabels (p :: rest)).length = 1 + p.length + (encodeLabels rest).length := by
  simp [encodeLabels]
  omega

/-- Dot-intercalation of two or more labels. -/
theorem intercalate_dot_cons_cons (a b : GoString) (l : List GoString) :
    [(46 : Nat)].intercalate (a :: b :: l) = a ++ [46] ++ [46].intercalate (b :: l) := by
  simp [List.intercalate, List.intersperse]

/-- The dot-joined accumulation is the dot-intercalation plus a final dot. -/
theorem joinDots_cons_eq (rest : List GoString) :
    ∀ p, joinDots (p :: rest) = [(46 : Nat)].intercalate (p :: rest) ++ [46] := by
  induction rest with
  | nil =>
    intro p
    simp [joinDots, List.intercalate, List.intersperse]
  | cons q rs ih =>
    intro p
    rw [show joinDots (p :: q :: rs) = p ++ [46] ++ joinDots (q :: rs) from rfl, ih q,
      intercalate_dot_cons_cons]
    simp

/-- Stripping the trailing dot of the accumulation of the parser recovers
the dot-intercalated name. -/
theorem stripDot_joinDots (parts : List GoString) :
    stripTrailingDot (joinDots parts) = [(46 : Nat)].intercalate parts := by
  cases parts with
  | nil => rfl
  | cons p rest =>
    rw [joinDots_cons_eq rest p]
    unfold stripTrailingDot
    rw [if_pos]
    · rw [List.dropLast_concat]
    · constructor
      · simp
      · rw [List.getLast?_concat]

/-- Central parse lemma: at an offset holding a plain (pointer-free)
label sequence, `parseNameLoop` consumes exactly that sequence and
accumulates its labels dot-separated.  Labels up to 191 octets are
accepted: only length bytes with the top two bits set (≥ 192) are treated
as pointers, and no limit on the composed name length is enforced. -/
theorem parseNameLoop_labels (parts : List GoString) :
    ∀ (pre post acc : GoString) (fuel : Nat),
    (∀ p ∈ parts, p ≠ [] ∧ p.length ≤ 191) →
    parts.length + 1 ≤ fuel →
    parseNameLoop (pre ++ encodeLabels parts ++ [0] ++ post) fuel acc pre.length
      = .ok (stripTrailingDot (acc ++ joinDots parts),
             pre.length + (encodeLabels parts).length + 1) := by
  induction parts with
  | nil =>
    intro pre post acc fuel _ hfuel
    match fuel, hfuel with
    | f + 1, _ =>
      rw [show pre ++ encodeLabels [] ++ [0] ++ post = pre ++ 0 :: post from by
        simp [encodeLabels]]
      rw [parseNameLoop]
      rw [if_neg (by simp)]
      rw [getD_at_append pre 0 post]
      rw [if_pos rfl]
      simp [joinDots, encodeLabels]
  | cons p rest ih =>
    intro pre post acc fuel hv hfuel
    match fuel, hfuel with
    | f + 1, hfuel =>
      have hp := hv p (List.mem_cons_self p rest)
      have hbuf : pre ++ encodeLabels (p :: rest) ++ [0] ++ post =
          pre ++ p.length :: (p ++ (encodeLabels rest ++ [0] ++ post)) := by
        simp [encodeLabels, List.append_assoc]
      rw [parseNameLoop, hbuf]
      rw [if_neg (by simp)]
      rw [getD_at_append pre p.length (p ++ (encodeLabels rest ++ [0] ++ post))]
      rw [if_neg (by have := hp.1; intro h; exact this (List.eq_nil_of_length_eq_zero h))]
      rw [if_neg (by
        intro h
        have hle : p.length &&& 0xC0 ≤ p.length := Nat.and_le_left
        rw [h] at hle
        have := hp.2
        omega)]
      rw [if_neg (by simp; omega)]
      have hslice : (((pre ++ p.length :: (p ++ (encodeLabels rest ++ [0] ++ post))).drop
          (pre.length + 1)).take p.length) = p := by
        have : pre ++ p.length :: (p ++ (encodeLabels rest ++ [0] ++ post)) =
            (pre ++ [p.length]) ++ p ++ (encodeLabels rest ++ [0] ++ post) := by
          simp [List.append_assoc]
        rw [this]
        have hlen : (pre ++ [p.length]).length = pre.length + 1 := by simp
        rw [← hlen, drop_take_mid]
      rw [hslice]
      have harg : pre ++ p.length :: (p ++ (encodeLabels rest ++ [0] ++ post)) =
          (pre ++ p.length :: p) ++ encodeLabels rest ++ [0] ++ post := by
        simp [List.append_assoc]
      have hoff : pre.length + 1 + p.length = (pre ++ p.length :: p).length := by
        simp
        omega
      rw [harg, hoff,
        ih (pre ++ p.length :: p) post (acc ++ p ++ [46]) f
          (fun q hq => hv q (List.mem_cons_of_mem p hq)) (by simpa using Nat.lt_of_succ_le hfuel)]
      have hjoin : acc ++ p ++ [46] ++ joinDots rest = acc ++ joinDots (p :: rest) := by
        show acc ++ p ++ [46] ++ joinDots rest = acc ++ (p ++ [46] ++ joinDots rest)
        simp [List.append_assoc]
      rw [hjoin]
      have hlen2 : (pre ++ p.length :: p).length + (encodeLabels rest).length + 1 =
          pre.length + (encodeLabels (p :: rest)).length + 1 := by
        rw [length_encodeLabels_cons]
        simp
        omega
      rw [hlen2]

/-- Go `ParseDomainName` on a plain label sequence embedded in a larger
buffer: returns the dot-joined name and the offset one past its
terminating zero octet. -/
theorem ParseDomainName_wire (parts : List GoString) (pre post : GoString) (fuel : Nat)
    (hv : ∀ p ∈ parts, p ≠ [] ∧ p.length ≤ 191)
    (hfuel : parts.length + 1 ≤ fuel) :
    ParseDomainName (pre ++ encodeLabels parts ++ [0] ++ post) pre.length fuel
      = .ok ([(46 : Nat)].intercalate parts,
             pre.length + (encodeLabels parts).length + 1) := by
  show parseNameLoop _ fuel [] pre.length = _
  rw [parseNameLoop_labels parts pre post [] fuel hv hfuel]
  rw [List.nil_append, stripDot_joinDots]

/-- C7 amended: the name parser succeeds on every plain label sequence —
in particular on all well-formed names (labels of 1..63 octets, composed
name ≤ 255 octets) — but its only rejection criterion on label lengths is
the pointer tag: any length byte up to 191 is accepted as a literal label
length, and no 255-octet composed-name limit is enforced. -/
theorem parse_name_limits (parts : List GoString)
    (hv : ∀ p ∈ parts, p ≠ [] ∧ p.length ≤ 191) (fuel : Nat)
    (hfuel : parts.length + 1 ≤ fuel) :
    ParseDomainName (encodeLabels parts ++ [0]) 0 fuel =
      .ok ([(46 : Nat)].intercalate parts, (encodeLabels parts).length + 1) := by
  have h := ParseDomainName_wire parts [] [] fuel hv hfuel
  simpa using h

/-- Witness for `parse_name_limits` on `www.example.com`. -/
theorem parse_name_limits_witness :
    ParseDomainName (encodeLabels [goStr "www", goStr "example", goStr "com"] ++ [0]) 0 4 =
      .ok ([(46 : Nat)].intercalate [goStr "www", goStr "example", goStr "com"],
        (encodeLabels [goStr "www", goStr "example", goStr "com"]).length + 1) :=
  parse_name_limits [goStr "www", goStr "example", goStr "com"] (by decide) 4 (by decide)

set_option maxRecDepth 40000 in
/-- C7 counterexample: the parser accepts a 64-octet label (greater than
the 63-octet limit) and a composed name of 319 octets (greater than the
255-octet limit); neither is rejected with an invalid-label error. -/
theorem parse_name_no_limits_counterexample :
    ParseDomainName ([64] ++ List.replicate 64 97 ++ [0]) 0 3 =
      .ok (List.replicate 64 97, 66) ∧
    ParseDomainName (encodeLabels (List.replicate 5 (List.replicate 63 97)) ++ [0]) 0 7 =
      .ok ([(46 : Nat)].intercalate (List.replicate 5 (List.replicate 63 97)), 321) ∧
    ([(46 : Nat)].intercalate (List.replicate 5 (List.replicate 63 97))).length = 319 := by
  refine ⟨rfl, rfl, rfl⟩

/-! ## Query-server theorems -/

set_option maxRecDepth 100000 in
/-- C5: a 7-octet datagram does not make header parsing fail — the server
passes the whole 512-octet receive buffer to `ParseRequest` (discarding
the read length), so on a fresh zeroed buffer the parse succeeds with
QDCount 0; the FORMERR (RCODE 1) response and the Success=0 sample come
from the zero-questions branch, not from a parse failure. -/
theorem short_datagram_parses_successfully :
    ParseRequest (bufferAfterRead freshBuffer (List.replicate 7 0)) 64 =
      .ok ⟨⟨0, ParseFlags 0, 0, 0, 0, 0⟩, [], [], [], []⟩ ∧
    (handleDatagram ⟨fun _ _ _ => (.ok none, 0), true⟩ 64
        (bufferAfterRead freshBuffer (List.replicate 7 0)) 0 [] 3).metric =
      some ⟨0, [], goStr "N/A", goStr "N/A", 0, .formerrNoQuestions, 3, 0, 1⟩ ∧
    (handleDatagram ⟨fun _ _ _ => (.ok none, 0), true⟩ 64
        (bufferAfterRead freshBuffer (List.replicate 7 0)) 0 [] 3).response =
      some ⟨⟨0, ⟨true, 0, false, false, false, false, 0, false, false, 1⟩, 0, 0, 0, 0⟩,
        [], [], [], []⟩ := by
  refine ⟨rfl, rfl, rfl⟩

/-! ## Packer theorems -/

/-- Each 16-bit write is two octets. -/
theorem u16be_length (x : Nat) : (u16be x).length = 2 := rfl

/-- The label loop writes valid labels verbatim. -/
theorem packLabels_valid (parts : List GoString) (origLen : Nat) (domain : GoString)
    (hv : ∀ p ∈ parts, p ≠ [] ∧ p.length ≤ 63) :
    packLabels parts origLen domain = .ok (encodeLabels parts) := by
  induction parts with
  | nil => rfl
  | cons p rest ih =>
    have hp := hv p (List.mem_cons_self p rest)
    rw [packLabels, if_neg hp.1, if_neg (by omega),
      ih (fun q hq => hv q (List.mem_cons_of_mem p hq))]
    rfl

/-- A name made of valid labels is neither empty nor a bare dot. -/
theorem valid_name_ne (name : GoString)
    (hv : ∀ p ∈ splitOnDot name, p ≠ [] ∧ p.length ≤ 63) :
    name ≠ [] ∧ name ≠ [46] := by
  constructor
  · intro h
    subst h
    exact (hv [] (by rw [show splitOnDot [] = [[]] from rfl]; simp)).1 rfl
  · intro h
    subst h
    exact (hv [] (by rw [show splitOnDot [46] = [[], []] from rfl]; simp)).1 rfl

/-- Go `packDomainName` on a fresh valid name: writes the labels and the
terminating octet and records the name at the current offset. -/
theorem packDomainName_literal (name : GoString) (offs : List (GoString × Nat))
    (curLen : Nat) (hnotin : findOffset offs name = none)
    (hv : ∀ p ∈ splitOnDot name, p ≠ [] ∧ p.length ≤ 63) :
    packDomainName name offs curLen =
      .ok (encodeLabels (splitOnDot name) ++ [0], (name, curLen % 65536) :: offs) := by
  have hne := valid_name_ne name hv
  simp only [packDomainName, hnotin]
  rw [packLabels_valid _ _ _ hv]
  simp [hne.1, hne.2]

/-- Go `packDomainName` on an already-recorded name: a 2-octet pointer. -/
theorem packDomainName_hit (name : GoString) (offs : List (GoString × Nat))
    (curLen off : Nat) (hfound : findOffset offs name = some off) :
    packDomainName name offs curLen = .ok (u16be (0xC000 ||| off), offs) := by
  rw [packDomainName, hfound]

/-- The question loop only appends to the buffer. -/
theorem packQuestions_prefix (qs : List DNSQuestion) :
    ∀ (buf : GoString) (offs : List (GoString × Nat)) (out : GoString)
      (offs' : List (GoString × Nat)),
    packQuestions qs buf offs = .ok (out, offs') → buf <+: out := by
  induction qs with
  | nil =>
    intro buf offs out offs' h
    simp only [packQuestions, Except.ok.injEq, Prod.mk.injEq] at h
    exact h.1 ▸ List.prefix_refl buf
  | cons q rest ih =>
    intro buf offs out offs' h
    simp only [packQuestions] at h
    split at h
    · simp at h
    · rename_i pn o1 heq1
      have hih := ih _ _ _ _ h
      have hstep : buf <+: buf ++ pn ++ u16be q.Type_ ++ u16be q.Class :=
        ⟨pn ++ u16be q.Type_ ++ u16be q.Class, by simp [List.append_assoc]⟩
      exact hstep.trans hih

/-- A prefix below the overwrite position survives `overwrite2`. -/
theorem prefix_overwrite2 (buf rest b2 : GoString) (pos : Nat)
    (hpos : buf.length ≤ pos) :
    buf <+: overwrite2 (buf ++ rest) pos b2 := by
  unfold overwrite2
  obtain ⟨j, rfl⟩ := Nat.exists_eq_add_of_le hpos
  rw [List.take_append]
  exact ((List.prefix_append _ _).trans (List.prefix_append _ _)).trans
    (List.prefix_append _ _)

/-- The answer loop never disturbs an existing prefix of the buffer. -/
theorem packAnswers_prefix (answers : List DNSRecord) :
    ∀ (buf : GoString) (offs : List (GoString × Nat)) (out : GoString)
      (offs' : List (GoString × Nat)),
    packAnswers answers buf offs = .ok (out, offs') → buf <+: out := by
  induction answers with
  | nil =>
    intro buf offs out offs' h
    simp only [packAnswers, Except.ok.injEq, Prod.mk.injEq] at h
    exact h.1 ▸ List.prefix_refl buf
  | cons a rest ih =>
    intro buf offs out offs' h
    simp only [packAnswers] at h
    split at h
    · simp at h
    · rename_i pn o1 heq1
      split at h
      · simp at h
      · rename_i rd o2 heq2
        refine List.IsPrefix.trans ?_ (ih _ _ _ _ h)
        have hshape : buf ++ pn ++ u16be a.Type_ ++ u16be a.Class ++ u32be a.TTL ++
            u16be 0 ++ rd =
            buf ++ (pn ++ u16be a.Type_ ++ u16be a.Class ++ u32be a.TTL ++
              u16be 0 ++ rd) := by
          simp [List.append_assoc]
        rw [hshape]
        apply prefix_overwrite2
        simp

/-- Total length of the wire form of a label sequence. -/
theorem length_encodeLabels (parts : List GoString) :
    (encodeLabels parts).length = parts.length + (parts.map List.length).sum := by
  induction parts with
  | nil => rfl
  | cons p rest ih =>
    simp [encodeLabels, ih]
    omega

set_option maxRecDepth 40000 in
/-- C2 counterexample: a response with a single 600-octet opaque-RData
answer packs to 625 octets — more than 512 — with no truncation and with
the TC bit of the emitted flags word still clear. -/
theorem pack_exceeds_512_counterexample :
    ((PackResponse ⟨⟨0, ⟨false, 0, false, false, false, false, 0, false, false, 0⟩,
        0, 1, 0, 0⟩, [], [⟨goStr "a", 99, 1, 0, List.replicate 600 0⟩], [], []⟩).map
      List.length = .ok 625) ∧
    ((PackResponse ⟨⟨0, ⟨false, 0, false, false, false, false, 0, false, false, 0⟩,
        0, 1, 0, 0⟩, [], [⟨goStr "a", 99, 1, 0, List.replicate 600 0⟩], [], []⟩).map
      (fun out => decide (out.length ≤ 512)) = .ok false) ∧
    ((PackResponse ⟨⟨0, ⟨false, 0, false, false, false, false, 0, false, false, 0⟩,
        0, 1, 0, 0⟩, [], [⟨goStr "a", 99, 1, 0, List.replicate 600 0⟩], [], []⟩).map
      (fun out => (ParseFlags (u16At out 2)).TC) = .ok false) := by
  refine ⟨rfl, rfl, rfl⟩

/-- C2 amended: the packer emits the full encoding at any size: the
12-octet header — the flags word (with TC exactly as given by the caller)
included — is written verbatim at the front of every successful output,
and the output length grows without bound with the message (here a
one-question family of size 17 + 2k): there is no 512-octet ceiling, no
truncation at a record boundary, and no TC update by the packer. -/
theorem pack_no_truncation_amended :
    (∀ (m : DNSRequest) (out : GoString), PackResponse m = .ok out →
      out.take 12 = u16be m.Header.ID ++ u16be m.Header.Flags.ToUint16 ++
        u16be m.Header.QDCount ++ u16be m.Header.ANCount ++ u16be m.Header.NSCount ++
        u16be m.Header.ARCount) ∧
    (∀ k, 1 ≤ k →
      (PackResponse ⟨⟨0, ⟨false, 0, false, false, false, false, 0, false, false, 0⟩,
          1, 0, 0, 0⟩, [⟨[(46 : Nat)].intercalate (List.replicate k [97]), 1, 1⟩],
          [], [], []⟩).map List.length = .ok (17 + 2 * k)) := by
  constructor
  · intro m out h
    simp only [PackResponse] at h
    split at h
    · simp at h
    · rename_i buf1 offs1 heq1
      split at h
      · simp at h
      · rename_i buf2 offs2 heq2
        have hout : buf2 = out := by simpa using h
        have hpre1 := packQuestions_prefix _ _ _ _ _ heq1
        have hpre2 := packAnswers_prefix _ _ _ _ _ heq2
        have hpre := hout ▸ hpre1.trans hpre2
        obtain ⟨tail, htail⟩ := hpre
        rw [← htail]
        exact List.take_left' (by simp [u16be_length])
  · intro k hk
    have hsplit : splitOnDot ([(46 : Nat)].intercalate (List.replicate k [97])) =
        List.replicate k [97] := by
      show List.splitOn 46 _ = _
      exact List.splitOn_intercalate (List.replicate k [97]) 46
        (by intro l hl; rw [List.eq_of_mem_replicate hl]; simp)
        (by simp; omega)
    have hv : ∀ p ∈ splitOnDot ([(46 : Nat)].intercalate (List.replicate k [97])),
        p ≠ [] ∧ p.length ≤ 63 := by
      rw [hsplit]
      intro p hp
      rw [List.eq_of_mem_replicate hp]
      exact ⟨by simp, by simp⟩
    simp only [PackResponse, packQuestions, packAnswers]
    rw [packDomainName_literal _ [] _ rfl hv, hsplit]
    simp [Except.map, length_encodeLabels, u16be_length]
    omega

/-- Go `splitDomainName` on a name with no empty segments is `splitOnDot`. -/
theorem splitDomainName_valid (name : GoString)
    (hv : ∀ p ∈ splitOnDot name, p ≠ [] ∧ p.length ≤ 63) :
    splitDomainName name = splitOnDot name := by
  unfold splitDomainName
  rw [List.filter_eq_self]
  intro p hp
  simpa using (hv p hp).1

/-- Go `formatLabels` on short-enough labels writes them all. -/
theorem formatLabels_valid (labels : List GoString)
    (hv : ∀ l ∈ labels, l.length ≤ 63) :
    formatLabels labels = encodeLabels labels := by
  induction labels with
  | nil => rfl
  | cons l rest ih =>
    rw [formatLabels, if_neg (by have := hv l (List.mem_cons_self l rest); omega),
      ih (fun q hq => hv q (List.mem_cons_of_mem l hq))]
    rfl

/-- The naive uncompressed encoding of a valid name. -/
theorem FormatDomainName_valid (name : GoString)
    (hv : ∀ p ∈ splitOnDot name, p ≠ [] ∧ p.length ≤ 63) :
    FormatDomainName name = encodeLabels (splitOnDot name) ++ [0] := by
  have hne := valid_name_ne name hv
  rw [FormatDomainName, if_neg hne.1, splitDomainName_valid name hv,
    formatLabels_valid _ (fun l hl => (hv l hl).2)]

/-- Witness for `pack_no_truncation_amended` on the empty response. -/
theorem pack_no_truncation_amended_witness :
    List.take 12 [0, 0, 0, 0, 0, 0, 0, 0, 0, 0, 0, 0] =
      u16be 0 ++
        u16be (DNSHeaderFlags.ToUint16
          ⟨false, 0, false, false, false, false, 0, false, false, 0⟩) ++
        u16be 0 ++ u16be 0 ++ u16be 0 ++ u16be 0 :=
  pack_no_truncation_amended.1
    ⟨⟨0, ⟨false, 0, false, false, false, false, 0, false, false, 0⟩, 0, 0, 0, 0⟩,
      [], [], [], []⟩ [0, 0, 0, 0, 0, 0, 0, 0, 0, 0, 0, 0] rfl

/-- C8 counterexample: two questions whose names share the 11-octet
suffix `example.com` (but are not equal) are both written in full — no
pointer is emitted, and the packed output is exactly the naive
uncompressed size, not strictly shorter. -/
theorem pack_shared_suffix_no_compression :
    ((PackResponse ⟨⟨0, ⟨false, 0, false, false, false, false, 0, false, false, 0⟩,
        2, 0, 0, 0⟩, [⟨goStr "mail.example.com", 1, 1⟩, ⟨goStr "mx1.example.com", 1, 1⟩],
        [], [], []⟩).map List.length = .ok 55) ∧
    naiveQuestionsSize ⟨⟨0, ⟨false, 0, false, false, false, false, 0, false, false, 0⟩,
        2, 0, 0, 0⟩, [⟨goStr "mail.example.com", 1, 1⟩, ⟨goStr "mx1.example.com", 1, 1⟩],
        [], [], []⟩ = 55 ∧
    (goStr "example.com").length = 11 ∧
    (goStr "example.com").isSuffixOf (goStr "mail.example.com") = true ∧
    (goStr "example.com").isSuffixOf (goStr "mx1.example.com") = true ∧
    ((PackResponse ⟨⟨0, ⟨false, 0, false, false, false, false, 0, false, false, 0⟩,
        2, 0, 0, 0⟩, [⟨goStr "mail.example.com", 1, 1⟩, ⟨goStr "mx1.example.com", 1, 1⟩],
        [], [], []⟩).map
      (fun out => decide (out.length <
        naiveQuestionsSize ⟨⟨0, ⟨false, 0, false, false, false, false, 0, false, false, 0⟩,
          2, 0, 0, 0⟩,
          [⟨goStr "mail.example.com", 1, 1⟩, ⟨goStr "mx1.example.com", 1, 1⟩],
          [], [], []⟩)) = .ok false) := by
  refine ⟨rfl, rfl, rfl, rfl, rfl, rfl⟩

/-- C8 amended: the name-compression map of the packer is keyed by whole
names, not suffixes (the suffix bookkeeping in the Go loop is an empty
statement): a pointer is emitted exactly when an entire earlier name
repeats.  Packing a response that repeats one valid name twice emits a
2-octet pointer for the second occurrence, and the output is strictly
shorter than the naive uncompressed encoding whenever the wire form of
the name exceeds 2 octets (always, for a nonempty name). -/
theorem pack_repeated_name_compresses (name : GoString) (t1 c1 t2 c2 : Nat)
    (hv : ∀ p ∈ splitOnDot name, p ≠ [] ∧ p.length ≤ 63) :
    ((PackResponse ⟨⟨0, ⟨false, 0, false, false, false, false, 0, false, false, 0⟩,
        2, 0, 0, 0⟩, [⟨name, t1, c1⟩, ⟨name, t2, c2⟩], [], [], []⟩).map List.length =
      .ok (12 + ((FormatDomainName name).length + 4) + (2 + 4))) ∧
    naiveQuestionsSize ⟨⟨0, ⟨false, 0, false, false, false, false, 0, false, false, 0⟩,
        2, 0, 0, 0⟩, [⟨name, t1, c1⟩, ⟨name, t2, c2⟩], [], [], []⟩ =
      12 + ((FormatDomainName name).length + 4) * 2 ∧
    (3 ≤ (FormatDomainName name).length →
      12 + ((FormatDomainName name).length + 4) + (2 + 4) <
        naiveQuestionsSize ⟨⟨0, ⟨false, 0, false, false, false, false, 0, false, false, 0⟩,
          2, 0, 0, 0⟩, [⟨name, t1, c1⟩, ⟨name, t2, c2⟩], [], [], []⟩) := by
  have hfmt := FormatDomainName_valid name hv
  refine ⟨?_, ?_, ?_⟩
  · simp only [PackResponse, packQuestions, packAnswers]
    rw [packDomainName_literal name [] _ rfl hv]
    dsimp only
    rw [packDomainName_hit name _ _ _ (by rw [findOffset, if_pos rfl])]
    dsimp only
    simp [Except.map, hfmt, u16be_length]
    omega
  · simp [naiveQuestionsSize]
    omega
  · intro h3
    simp [naiveQuestionsSize]
    omega

/-- Witness for `pack_repeated_name_compresses` on `example.com`. -/
theorem pack_repeated_name_compresses_witness :
    (PackResponse ⟨⟨0, ⟨false, 0, false, false, false, false, 0, false, false, 0⟩,
        2, 0, 0, 0⟩, [⟨goStr "example.com", 1, 1⟩, ⟨goStr "example.com", 15, 1⟩],
        [], [], []⟩).map List.length =
      .ok (12 + ((FormatDomainName (goStr "example.com")).length + 4) + (2 + 4)) :=
  (pack_repeated_name_compresses (goStr "example.com") 1 1 15 1 (by decide)).1

/-! ## Round-trip machinery -/

/-- The packed header is 12 octets. -/
theorem hdrBytes_length (h : DNSHeader) : (hdrBytes h).length = 12 := by
  simp [hdrBytes, u16be_length]

/-- Reading back a big-endian 16-bit value at its exact position. -/
theorem u16At_shape (buffer : GoString) (off : Nat) (pre2 post2 : GoString) (v : Nat)
    (hb : buffer = pre2 ++ u16be v ++ post2) (hoff : off = pre2.length) :
    u16At buffer off = v % 65536 := by
  subst hb hoff
  unfold u16At
  rw [show pre2 ++ u16be v ++ post2 =
      pre2 ++ ((v % 65536) >>> 8) :: (((v % 65536) &&& 255) :: post2) from by
    simp [u16be, List.append_assoc]]
  rw [getD_at_append]
  rw [show pre2 ++ ((v % 65536) >>> 8) :: (((v % 65536) &&& 255) :: post2) =
      (pre2 ++ [(v % 65536) >>> 8]) ++ ((v % 65536) &&& 255) :: post2 from by simp]
  rw [show pre2.length + 1 = (pre2 ++ [(v % 65536) >>> 8]).length from by simp]
  rw [getD_at_append]
  rw [Nat.shiftRight_eq_div_pow, Nat.shiftLeft_eq,
    show (255 : Nat) = 2 ^ 8 - 1 from rfl, Nat.and_pow_two_sub_one_eq_mod]
  rw [lor_eq_add_of_dvd 8 ⟨v % 65536 / 2 ^ 8, by ring⟩
    (Nat.mod_lt _ (by norm_num))]
  omega

/-- Go `ParseDomainName` at the exact position of a plain label sequence. -/
theorem ParseDomainName_shape (buffer : GoString) (off fuel : Nat)
    (parts : List GoString) (pre post : GoString)
    (hb : buffer = pre ++ encodeLabels parts ++ [0] ++ post) (hoff : off = pre.length)
    (hv : ∀ p ∈ parts, p ≠ [] ∧ p.length ≤ 191)
    (hfuel : parts.length + 1 ≤ fuel) :
    ParseDomainName buffer off fuel =
      .ok ([(46 : Nat)].intercalate parts,
        pre.length + (encodeLabels parts).length + 1) := by
  subst hb hoff
  exact ParseDomainName_wire parts pre post fuel hv hfuel

/-- The question pack loop on fresh, pairwise-distinct valid names
appends exactly the uncompressed question encodings. -/
theorem packQuestions_ok (qs : List DNSQuestion) :
    ∀ (buf : GoString) (offs : List (GoString × Nat)),
    (∀ q ∈ qs, ∀ p ∈ splitOnDot q.Name, p ≠ [] ∧ p.length ≤ 63) →
    (∀ q ∈ qs, findOffset offs q.Name = none) →
    qs.Pairwise (fun a b => a.Name ≠ b.Name) →
    ∃ offs', packQuestions qs buf offs = .ok (buf ++ encQuestions qs, offs') := by
  induction qs with
  | nil =>
    intro buf offs _ _ _
    exact ⟨offs, by simp [packQuestions, encQuestions]⟩
  | cons q rest ih =>
    intro buf offs hv hnone hdist
    obtain ⟨hdq, hdrest⟩ := List.pairwise_cons.mp hdist
    obtain ⟨offs', hrec⟩ := ih
      (buf ++ (encodeLabels (splitOnDot q.Name) ++ [0]) ++ u16be q.Type_ ++ u16be q.Class)
      ((q.Name, buf.length % 65536) :: offs)
      (fun r hr => hv r (List.mem_cons_of_mem _ hr))
      (fun r hr => by
        rw [findOffset, if_neg (fun hEq => hdq r hr hEq)]
        exact hnone r (List.mem_cons_of_mem _ hr))
      hdrest
    refine ⟨offs', ?_⟩
    rw [packQuestions,
      packDomainName_literal q.Name offs buf.length (hnone q (List.mem_cons_self q rest))
        (hv q (List.mem_cons_self q rest))]
    dsimp only
    rw [hrec]
    simp [encQuestions, encQ, List.append_assoc]

/-- The question parse loop recovers the question list from its
uncompressed encoding, wherever it sits in the buffer. -/
theorem parseQuestions_enc (qs : List DNSQuestion) :
    ∀ (buffer pre post : GoString) (off n fuel : Nat),
    buffer = pre ++ encQuestions qs ++ post → off = pre.length → n = qs.length →
    (∀ q ∈ qs, (∀ p ∈ splitOnDot q.Name, p ≠ [] ∧ p.length ≤ 63) ∧
      q.Type_ < 65536 ∧ q.Class < 65536) →
    (∀ q ∈ qs, (splitOnDot q.Name).length + 1 ≤ fuel) →
    parseQuestions buffer fuel n off = .ok qs := by
  induction qs with
  | nil =>
    intro buffer pre post off n fuel _ _ hn _ _
    subst hn
    rfl
  | cons q rest ih =>
    intro buffer pre post off n fuel hb hoff hn hv hfuel
    subst hn hoff
    obtain ⟨hvq, htq, hcq⟩ := hv q (List.mem_cons_self q rest)
    have hvq191 : ∀ p ∈ splitOnDot q.Name, p ≠ [] ∧ p.length ≤ 191 :=
      fun p hp => ⟨(hvq p hp).1, by have := (hvq p hp).2; omega⟩
    have hbuf : buffer = pre ++ encodeLabels (splitOnDot q.Name) ++ [0] ++
        (u16be q.Type_ ++ u16be q.Class ++ (encQuestions rest ++ post)) := by
      rw [hb]
      simp [encQuestions, encQ, List.append_assoc]
    have hblen : buffer.length = pre.length + (encodeLabels (splitOnDot q.Name)).length +
        5 + (encQuestions rest).length + post.length := by
      rw [hbuf]
      simp [u16be_length]
      omega
    simp only [List.length_cons]
    rw [parseQuestions]
    rw [if_neg (by omega)]
    rw [ParseQuestionSection]
    rw [if_neg (by omega)]
    rw [ParseDomainName_shape buffer pre.length fuel (splitOnDot q.Name) pre
      (u16be q.Type_ ++ u16be q.Class ++ (encQuestions rest ++ post)) hbuf rfl hvq191
      (hfuel q (List.mem_cons_self q rest))]
    dsimp only
    rw [if_neg (by omega)]
    rw [u16At_shape buffer (pre.length + (encodeLabels (splitOnDot q.Name)).length + 1)
      (pre ++ encodeLabels (splitOnDot q.Name) ++ [0])
      (u16be q.Class ++ (encQuestions rest ++ post)) q.Type_
      (by rw [hbuf]; simp [List.append_assoc]) (by simp; omega)]
    rw [u16At_shape buffer (pre.length + (encodeLabels (splitOnDot q.Name)).length + 1 + 2)
      (pre ++ encodeLabels (splitOnDot q.Name) ++ [0] ++ u16be q.Type_)
      (encQuestions rest ++ post) q.Class
      (by rw [hbuf]; simp [List.append_assoc]) (by simp [u16be_length]; omega)]
    dsimp only
    rw [ih buffer (pre ++ encQ q) post
      (pre.length + (encodeLabels (splitOnDot q.Name)).length + 1 + 4) rest.length fuel
      (by rw [hb]; simp [encQuestions, List.append_assoc])
      (by simp [encQ, u16be_length]; omega) rfl
      (fun r hr => hv r (List.mem_cons_of_mem _ hr))
      (fun r hr => hfuel r (List.mem_cons_of_mem _ hr))]
    dsimp only
    have hname : [(46 : Nat)].intercalate (splitOnDot q.Name) = q.Name :=
      List.intercalate_splitOn q.Name 46
    rw [hname, Nat.mod_eq_of_lt htq, Nat.mod_eq_of_lt hcq]

/-- Parsing the packed header recovers the header, for in-range counters
and flags realizable as a parse of a 16-bit word. -/
theorem parseHeaderSection_hdrBytes (h : DNSHeader) (w : Nat)
    (hid : h.ID < 65536) (hqd : h.QDCount < 65536) (han : h.ANCount < 65536)
    (hns : h.NSCount < 65536) (har : h.ARCount < 65536)
    (hw : w < 65536) (hfl : h.Flags = ParseFlags w) :
    ParseHeaderSection (hdrBytes h) = h := by
  obtain ⟨id, fl, qd, an, ns, ar⟩ := h
  simp only at hid hqd han hns har hfl
  unfold ParseHeaderSection
  rw [u16At_shape (hdrBytes ⟨id, fl, qd, an, ns, ar⟩) 0 []
    (u16be fl.ToUint16 ++ u16be qd ++ u16be an ++ u16be ns ++ u16be ar) id
    (by simp [hdrBytes, List.append_assoc]) (by simp)]
  rw [u16At_shape (hdrBytes ⟨id, fl, qd, an, ns, ar⟩) 2 (u16be id)
    (u16be qd ++ u16be an ++ u16be ns ++ u16be ar) fl.ToUint16
    (by simp [hdrBytes, List.append_assoc]) (by simp [u16be_length])]
  rw [u16At_shape (hdrBytes ⟨id, fl, qd, an, ns, ar⟩) 4 (u16be id ++ u16be fl.ToUint16)
    (u16be an ++ u16be ns ++ u16be ar) qd
    (by simp [hdrBytes, List.append_assoc]) (by simp [u16be_length])]
  rw [u16At_shape (hdrBytes ⟨id, fl, qd, an, ns, ar⟩) 6
    (u16be id ++ u16be fl.ToUint16 ++ u16be qd) (u16be ns ++ u16be ar) an
    (by simp [hdrBytes, List.append_assoc]) (by simp [u16be_length])]
  rw [u16At_shape (hdrBytes ⟨id, fl, qd, an, ns, ar⟩) 8
    (u16be id ++ u16be fl.ToUint16 ++ u16be qd ++ u16be an) (u16be ar) ns
    (by simp [hdrBytes, List.append_assoc]) (by simp [u16be_length])]
  rw [u16At_shape (hdrBytes ⟨id, fl, qd, an, ns, ar⟩) 10
    (u16be id ++ u16be fl.ToUint16 ++ u16be qd ++ u16be an ++ u16be ns) [] ar
    (by simp [hdrBytes, List.append_assoc]) (by simp [u16be_length])]
  rw [hfl, toUint16_parseFlags w hw, Nat.mod_eq_of_lt hw]
  rw [Nat.mod_eq_of_lt hid, Nat.mod_eq_of_lt hqd, Nat.mod_eq_of_lt han,
    Nat.mod_eq_of_lt hns, Nat.mod_eq_of_lt har]

/-- C1 amended: packing then parsing is the identity on messages carrying
only a header and questions (the sections the parser reads back): the
names must be well-formed and pairwise distinct (a repeated name would be
packed as a compression pointer; that case is covered by the compression
theorem), the counters in range, the QDCount consistent, and the flags
realizable as a parse (AD = CD = false, fields in width).  Messages with
answer, authority or additional records do not round-trip: `ParseRequest`
never reads those sections. -/
theorem parse_pack_roundtrip (m : DNSRequest)
    (hans : m.Answers = []) (hauth : m.Authority = []) (hadd : m.Additional = [])
    (hqd : m.Header.QDCount = m.Questions.length)
    (hid : m.Header.ID < 65536) (hqdlt : m.Header.QDCount < 65536)
    (han : m.Header.ANCount < 65536) (hns : m.Header.NSCount < 65536)
    (har : m.Header.ARCount < 65536)
    (w : Nat) (hw : w < 65536) (hfl : m.Header.Flags = ParseFlags w)
    (hqs : ∀ q ∈ m.Questions, (∀ p ∈ splitOnDot q.Name, p ≠ [] ∧ p.length ≤ 63) ∧
      q.Type_ < 65536 ∧ q.Class < 65536)
    (hdist : m.Questions.Pairwise (fun a b => a.Name ≠ b.Name))
    (fuel : Nat) (hfuel : ∀ q ∈ m.Questions, (splitOnDot q.Name).length + 1 ≤ fuel) :
    PackResponse m = .ok (hdrBytes m.Header ++ encQuestions m.Questions) ∧
    ParseRequest (hdrBytes m.Header ++ encQuestions m.Questions) fuel = .ok m := by
  constructor
  · obtain ⟨offs', hq⟩ := packQuestions_ok m.Questions (hdrBytes m.Header) []
      (fun q hq => (hqs q hq).1) (fun q _ => rfl) hdist
    simp only [PackResponse]
    rw [show u16be m.Header.ID ++ u16be m.Header.Flags.ToUint16 ++
        u16be m.Header.QDCount ++ u16be m.Header.ANCount ++ u16be m.Header.NSCount ++
        u16be m.Header.ARCount = hdrBytes m.Header from rfl]
    rw [hq]
    dsimp only
    rw [hans]
    rfl
  · rw [ParseRequest]
    rw [if_neg (by simp [hdrBytes_length])]
    rw [List.take_left' (hdrBytes_length m.Header)]
    rw [parseHeaderSection_hdrBytes m.Header w hid hqdlt han hns har hw hfl]
    dsimp only
    rw [parseQuestions_enc m.Questions (hdrBytes m.Header ++ encQuestions m.Questions)
      (hdrBytes m.Header) [] 12 m.Header.QDCount fuel (by simp)
      (by rw [hdrBytes_length]) hqd hqs hfuel]
    dsimp only
    obtain ⟨hh, hq, hansm, hauthm, haddm⟩ := m
    simp only at hans hauth hadd
    rw [hans, hauth, hadd]

/-- Witness for `parse_pack_roundtrip` on a one-question query for
`www.example.com`. -/
theorem parse_pack_roundtrip_witness :
    PackResponse ⟨⟨0x1234, ParseFlags 0x0100, 1, 0, 0, 0⟩,
        [⟨goStr "www.example.com", 1, 1⟩], [], [], []⟩ =
      .ok (hdrBytes ⟨0x1234, ParseFlags 0x0100, 1, 0, 0, 0⟩ ++
        encQuestions [⟨goStr "www.example.com", 1, 1⟩]) ∧
    ParseRequest (hdrBytes ⟨0x1234, ParseFlags 0x0100, 1, 0, 0, 0⟩ ++
        encQuestions [⟨goStr "www.example.com", 1, 1⟩]) 9 =
      .ok ⟨⟨0x1234, ParseFlags 0x0100, 1, 0, 0, 0⟩,
        [⟨goStr "www.example.com", 1, 1⟩], [], [], []⟩ :=
  parse_pack_roundtrip _ rfl rfl rfl rfl (by decide) (by decide) (by decide) (by decide)
    (by decide) 0x0100 (by decide) rfl (by decide) (by decide) 9 (by decide)

/-- C1 counterexample: a well-formed message carrying one A-record answer
does not round-trip: `ParseRequest` reads only the header and question
section, so the answer present in the packed octets is lost. -/
theorem parse_pack_roundtrip_counterexample :
    (PackResponse ⟨⟨1, ParseFlags 0, 0, 1, 0, 0⟩, [],
        [⟨goStr "a", 1, 1, 60, [1, 2, 3, 4]⟩], [], []⟩).map
      (fun out => ParseRequest out 64) =
      .ok (.ok ⟨⟨1, ParseFlags 0, 0, 1, 0, 0⟩, [], [], [], []⟩) ∧
    (⟨⟨1, ParseFlags 0, 0, 1, 0, 0⟩, [], [], [], []⟩ : DNSRequest) ≠
      ⟨⟨1, ParseFlags 0, 0, 1, 0, 0⟩, [],
        [⟨goStr "a", 1, 1, 60, [1, 2, 3, 4]⟩], [], []⟩ := by
  refine ⟨rfl, by decide⟩
